import Mathlib

/-!
Verification development for the `online-tracker-bot` repository
(`telegram_tracker.py`).  The Python source is shallowly embedded as
executable Lean definitions:

* `RateLimiter.wait_if_needed` — the pure "plan" of one call is `rlPlan`
  (trim the timestamp list, decide the sleep duration, or raise the
  `ValueError` that `min([])` produces); the timing of a single-caller call
  sequence is captured by `validFrom`, which threads the trimmed list and
  requires the clock readings to be strictly increasing between calls
  (the spec requires a monotonic clock) and each post-sleep reading to be
  at least the call reading plus the requested sleep.
* `DatabaseManager.update_user` / `record_status` — `update_user`,
  `record_status` over an explicit `DBState`; an sqlite error during a
  write is an oracle `Bool` argument (the source catches `sqlite3.Error`,
  rolls the transaction back, logs and returns).
* `TelegramTracker._record_user_status` — `record_user_status` with the
  status-class dispatch embedded as `statusFields`.
* `TelegramTracker._check_all_users` / `_check_users_individually` —
  `check_all_users` / `check_users_individually`, producing the list of
  observable events (rate-limit waits, remote calls, sleeps, per-user
  processing) together with the resulting database state.  The remote
  service is an environment `FetchEnv` whose error signals mirror
  `FloodWaitError` / `RPCError` / other exceptions.
* `TelegramTracker.stop` / `_tracking_loop` — `stopEngine` and the
  cooperative small-step function `loopStep` on `Engine`.
-/

/-- The Python exception that `min([])` raises inside
`RateLimiter.wait_if_needed` when the timestamp list is empty and
`max_requests_per_second` is `0`. -/
inductive PyError where
  | valueError
deriving DecidableEq

/-- `self.request_times = [t for t in self.request_times if current_time - t <= self.interval]`
with `self.interval = 1.0`.  Timestamps are rationals (exact arithmetic for
the float computations of the source). -/
def trim (c : ℚ) (l : List ℚ) : List ℚ :=
  l.filter (fun t => decide (c - t ≤ 1))

/-- Python's `min` on a list of timestamps; `none` models the `ValueError`
raised on an empty list. -/
def minQ : List ℚ → Option ℚ
  | [] => none
  | a :: l =>
    match minQ l with
    | none => some a
    | some b => some (min a b)

/-- One call of `RateLimiter.wait_if_needed`, as a pure plan: given the
configured maximum `m`, the reading `c` of `time.time()` at the head of the
call and the stored `request_times` list `l`, it returns the minimal time
the caller must sleep together with the trimmed list, or the `ValueError`
of `min([])`.  The grant appended afterwards is the fresh `time.time()`
reading taken after the sleep; it is supplied externally (see `validFrom`).
`max (1 - (c - o)) 0` reflects `if wait_time > 0: await asyncio.sleep(wait_time)`:
a non-positive computed wait sleeps not at all. -/
def rlPlan (m : ℕ) (c : ℚ) (l : List ℚ) : Except PyError (ℚ × List ℚ) :=
  let kept := trim c l
  if m ≤ kept.length then
    match minQ kept with
    | none => .error .valueError
    | some o => .ok (max (1 - (c - o)) 0, kept)
  else
    .ok (0, kept)

/-- Validity of a single-caller call sequence against the rate limiter.
Each call is a pair `(c, s)`: `c` is the `time.time()` reading at the head
of `wait_if_needed`, `s` the reading appended as the grant after the
(possibly empty) sleep.  `p` is the previous reading; the clock is strictly
monotone between calls (`p < c`) and the post-sleep reading honours the
requested sleep (`c + w ≤ s`).  The stored list is threaded exactly as the
source does: `trim c l ++ [s]`. -/
def validFrom (m : ℕ) : List ℚ → ℚ → List (ℚ × ℚ) → Bool
  | _, _, [] => true
  | l, p, (c, s) :: rest =>
    match rlPlan m c l with
    | .error _ => false
    | .ok (w, kept) =>
      decide (p < c) && decide (c + w ≤ s) && validFrom m (kept ++ [s]) s rest

/-- Number of grant timestamps inside the trailing 1-second window ending at
moment `x` (the half-open interval from `x - 1` exclusive to `x`
inclusive). -/
def windowCount (x : ℚ) (g : List ℚ) : ℕ :=
  (g.filter (fun t => decide (x - 1 < t ∧ t ≤ x))).length

/-- One row of the `users` table. -/
structure UserRow where
  id : ℤ
  username : Option String
  first_name : Option String
  last_name : Option String
deriving DecidableEq

/-- One row of the `status` table (`id` is the autoincrement key,
`was_online` is the nullable timestamp column). -/
structure StatusRow where
  row_id : ℕ
  user_id : ℤ
  status : String
  was_online : Option ℤ
deriving DecidableEq

/-- The observable state of `DatabaseManager`: whether `self.conn` is set,
the two tables, the next autoincrement value, and a count of errors written
to the log. -/
structure DBState where
  conn_open : Bool
  users : List UserRow
  status_rows : List StatusRow
  next_status_id : ℕ
  errors_logged : ℕ
deriving DecidableEq

/-- The subset of a Telethon `User` that the tracker reads.  `status`
mirrors the dynamic dispatch in `_record_user_status`: `otherStatus`
stands for every status class other than `UserStatusOnline`,
`UserStatusOffline`, `UserStatusRecently` (including `None`). -/
inductive UserStatusT where
  | online
  | offline (was_online : ℤ)
  | recently
  | otherStatus
deriving DecidableEq

structure TUser where
  id : ℤ
  username : Option String
  first_name : Option String
  last_name : Option String
  status : UserStatusT
deriving DecidableEq

/-- `DatabaseManager.update_user`.  `fail` is true when the sqlite
operations raise `sqlite3.Error`; the handler logs the error and rolls the
transaction back, so the tables are unchanged.  With no connection the
method logs an error and returns at once. -/
def update_user (db : DBState) (u : TUser) (fail : Bool) : DBState :=
  if db.conn_open = false then
    { db with errors_logged := db.errors_logged + 1 }
  else if fail then
    { db with errors_logged := db.errors_logged + 1 }
  else if db.users.any (fun r => r.id == u.id) then
    { db with users := db.users.map (fun r =>
        if r.id == u.id then
          { r with username := u.username, first_name := u.first_name,
                   last_name := u.last_name }
        else r) }
  else
    { db with users := db.users ++ [⟨u.id, u.username, u.first_name, u.last_name⟩] }

/-- `DatabaseManager.record_status`.  A new `status` row is always inserted
(append only); the row id is the autoincrement value.  `fail` models
`sqlite3.Error` during the insert/commit: logged and rolled back, tables
unchanged.  With no connection the method logs an error and returns. -/
def record_status (db : DBState) (user_id : ℤ) (status : String)
    (was_online : Option ℤ) (fail : Bool) : DBState :=
  if db.conn_open = false then
    { db with errors_logged := db.errors_logged + 1 }
  else if fail then
    { db with errors_logged := db.errors_logged + 1 }
  else
    { db with
      status_rows := db.status_rows ++
        [⟨db.next_status_id, user_id, status, was_online⟩],
      next_status_id := db.next_status_id + 1 }

/-- The status normalization of `TelegramTracker._record_user_status`:
`status_str` starts as `"unknown"` and `was_online` as `None`; the
`isinstance` chain overrides them for the three recognized classes, and
only the offline branch sets `was_online` (verbatim from the reply). -/
def statusFields : UserStatusT → String × Option ℤ
  | .online => ("online", none)
  | .offline w => ("offline", some w)
  | .recently => ("recently", none)
  | .otherStatus => ("unknown", none)

/-- `TelegramTracker._record_user_status`: normalize, then
`self.db_manager.record_status(user.id, status_str, was_online)`. -/
def record_user_status (db : DBState) (u : TUser) (fail : Bool) : DBState :=
  record_status db u.id (statusFields u.status).1 (statusFields u.status).2 fail

/-- Error signals of the remote service, mirroring the exception classes
caught in `_check_all_users` / `_check_users_individually`:
`floodWait` is `FloodWaitError` (carrying `e.seconds`), `rpc` is any other
`RPCError`, `otherErr` any other `Exception`. -/
inductive FetchErr where
  | floodWait (seconds : ℕ)
  | rpc
  | otherErr
deriving DecidableEq

/-- Observable events of one fetch cycle. -/
inductive Ev where
  | rlWait
  | batchFetch
  | indivFetch (uid : ℤ)
  | sleep (seconds : ℕ)
  | procUser (uid : ℤ)
  | procError (uid : ℤ)
  | logErr
deriving DecidableEq

/-- The environment of one cycle: the outcome of the batch request, the
outcome of each single-user request, and the failure oracles — a non-sqlite
exception raised while a profile is processed, and sqlite errors inside the
two database writes. -/
structure FetchEnv where
  batch : Except FetchErr (List TUser)
  individual : ℤ → Except FetchErr TUser
  processRaise : ℤ → Bool
  updateFail : ℤ → Bool
  recordFail : ℤ → Bool

/-- Processing of one fetched profile (the body of the inner `try` in
`_check_all_users`, also run per id in the fallback): update the user row,
record the status observation; a raised exception is caught by the
enclosing handler, logged (`procError`) and the loop continues. -/
def processUser (env : FetchEnv) (db : DBState) (u : TUser) : List Ev × DBState :=
  if env.processRaise u.id then
    ([Ev.procError u.id], db)
  else
    ([Ev.procUser u.id],
     record_user_status (update_user db u (env.updateFail u.id)) u (env.recordFail u.id))

/-- The `for user in users` loop over the batch reply in
`_check_all_users`: each profile is processed under its own
`try/except Exception`, so one profile's failure never stops the rest. -/
def processUsers (env : FetchEnv) (db : DBState) : List TUser → List Ev × DBState
  | [] => ([], db)
  | u :: rest =>
    let pu := processUser env db u
    let t := processUsers env pu.2 rest
    (pu.1 ++ t.1, t.2)

/-- `TelegramTracker._check_users_individually`: iterate the tracked ids;
per id: rate-limiter wait, `get_entity`, then processing; `FloodWaitError`
sleeps `e.seconds` and continues, `RPCError` and any other `Exception` are
logged and the loop continues with the next id. -/
def check_users_individually (env : FetchEnv) (db : DBState) :
    List ℤ → List Ev × DBState
  | [] => ([], db)
  | uid :: rest =>
    match env.individual uid with
    | .error (.floodWait n) =>
      let t := check_users_individually env db rest
      ([Ev.rlWait, Ev.indivFetch uid, Ev.sleep n] ++ t.1, t.2)
    | .error .rpc =>
      let t := check_users_individually env db rest
      ([Ev.rlWait, Ev.indivFetch uid, Ev.logErr] ++ t.1, t.2)
    | .error .otherErr =>
      let t := check_users_individually env db rest
      ([Ev.rlWait, Ev.indivFetch uid, Ev.logErr] ++ t.1, t.2)
    | .ok u =>
      let pu := processUser env db u
      let t := check_users_individually env pu.2 rest
      ([Ev.rlWait, Ev.indivFetch uid] ++ pu.1 ++ t.1, t.2)

/-- `TelegramTracker._check_all_users`: rate-limiter wait, batch
`GetUsersRequest`, then per-profile processing.  `FloodWaitError` sleeps
`e.seconds` and ends the cycle; `RPCError` is logged and ends the cycle;
any other `Exception` is logged and falls back to
`_check_users_individually`. -/
def check_all_users (env : FetchEnv) (db : DBState) (ids : List ℤ) :
    List Ev × DBState :=
  match env.batch with
  | .error (.floodWait n) => ([Ev.rlWait, Ev.batchFetch, Ev.sleep n], db)
  | .error .rpc => ([Ev.rlWait, Ev.batchFetch, Ev.logErr], db)
  | .error .otherErr =>
    let fb := check_users_individually env db ids
    ([Ev.rlWait, Ev.batchFetch, Ev.logErr] ++ fb.1, fb.2)
  | .ok users =>
    let pr := processUsers env db users
    ([Ev.rlWait, Ev.batchFetch] ++ pr.1, pr.2)

/-- The per-id event block of the fallback loop, as a function of the
environment only (the events do not depend on the database state). -/
def indivBlock (env : FetchEnv) (uid : ℤ) : List Ev :=
  match env.individual uid with
  | .error (.floodWait n) => [Ev.rlWait, Ev.indivFetch uid, Ev.sleep n]
  | .error .rpc => [Ev.rlWait, Ev.indivFetch uid, Ev.logErr]
  | .error .otherErr => [Ev.rlWait, Ev.indivFetch uid, Ev.logErr]
  | .ok u =>
    [Ev.rlWait, Ev.indivFetch uid] ++
      (if env.processRaise u.id then [Ev.procError u.id] else [Ev.procUser u.id])

/-- Concatenation of the per-id fallback blocks. -/
def blocks (env : FetchEnv) : List ℤ → List Ev
  | [] => []
  | uid :: rest => indivBlock env uid ++ blocks env rest

/-- Is the event an individual (`get_entity`) fetch attempt? -/
def isIndivB : Ev → Bool
  | .indivFetch _ => true
  | _ => false

/-- Is the event the processing outcome of one fetched profile? -/
def isProcB : Ev → Bool
  | .procUser _ => true
  | .procError _ => true
  | _ => false

/-- Control position of `_tracking_loop`: at the `while self.is_running`
check, inside `await asyncio.sleep(check_interval)` with some remaining
duration (in abstract time ticks), or past the loop. -/
inductive Phase where
  | loopTop
  | sleeping (remaining : ℕ)
  | exited
deriving DecidableEq

/-- The scheduler: the `is_running` flag, the connection and database
handles, the number of fetch cycles started, and the loop position. -/
structure Engine where
  is_running : Bool
  connected : Bool
  db_open : Bool
  cycles : ℕ
  phase : Phase
deriving DecidableEq

/-- One cooperative step of `_tracking_loop`: at the `while` check, a
running engine starts a fetch cycle (counted) and then enters the interval
sleep; a non-running engine leaves the loop.  A sleep consumes one tick per
step and returns to the `while` check when exhausted; `stop()` does not
shorten it. -/
def loopStep (interval : ℕ) (e : Engine) : Engine :=
  match e.phase with
  | .loopTop =>
    if e.is_running then
      { e with cycles := e.cycles + 1, phase := .sleeping interval }
    else
      { e with phase := .exited }
  | .sleeping (n + 1) => { e with phase := .sleeping n }
  | .sleeping 0 => { e with phase := .loopTop }
  | .exited => e

/-- `TelegramTracker.stop`: clear `is_running`, disconnect the client if
connected, close the database handle.  It does not cancel the loop task,
so the loop position is untouched. -/
def stopEngine (e : Engine) : Engine :=
  { e with is_running := false, connected := false, db_open := false }

/-- A profile with the given id and status and empty name fields. -/
def sampleUser (i : ℤ) (st : UserStatusT) : TUser :=
  ⟨i, none, none, none, st⟩

/-- A freshly initialized, empty, open database. -/
def dbOpen : DBState := ⟨true, [], [], 0, 0⟩

/-- A database whose connection is not initialized (`self.conn is None`). -/
def dbClosed : DBState := ⟨false, [], [], 0, 0⟩

/-- Three profiles as returned by one successful batch request. -/
def users3 : List TUser :=
  [sampleUser 1 UserStatusT.online, sampleUser 2 (UserStatusT.offline 5),
   sampleUser 3 UserStatusT.recently]

/-- Environment whose batch request fails with a plain `RPCError` (not a
rate-limit signal); no database failures. -/
def envRpc : FetchEnv :=
  ⟨Except.error FetchErr.rpc, fun _ => Except.error FetchErr.rpc,
   fun _ => false, fun _ => false, fun _ => false⟩

/-- Environment whose batch request fails with an unclassified error and
whose individual request for id 2 also fails; ids other than 2 succeed. -/
def envFallbackSample : FetchEnv :=
  ⟨Except.error FetchErr.otherErr,
   fun uid => if uid = 2 then Except.error FetchErr.otherErr
              else Except.ok (sampleUser uid UserStatusT.online),
   fun _ => false, fun _ => false, fun _ => false⟩

/-- Environment whose batch request fails with `FloodWaitError` carrying a
7-second wait. -/
def envBatchFlood : FetchEnv :=
  ⟨Except.error (FetchErr.floodWait 7), fun _ => Except.error FetchErr.rpc,
   fun _ => false, fun _ => false, fun _ => false⟩

/-- Environment in fallback where the individual request for id 1 fails
with `FloodWaitError` carrying a 4-second wait and other ids succeed. -/
def envIndivFlood : FetchEnv :=
  ⟨Except.error FetchErr.otherErr,
   fun uid => if uid = 1 then Except.error (FetchErr.floodWait 4)
              else Except.ok (sampleUser uid UserStatusT.online),
   fun _ => false, fun _ => false, fun _ => false⟩

/-- Environment whose batch request succeeds with three profiles and where
processing the profile with id 2 raises an exception. -/
def envBatchOk3 : FetchEnv :=
  ⟨Except.ok users3, fun _ => Except.error FetchErr.rpc,
   fun i => i == 2, fun _ => false, fun _ => false⟩

/-- Environment whose batch request succeeds with a single profile. -/
def envBatchOk1 : FetchEnv :=
  ⟨Except.ok [sampleUser 5 UserStatusT.recently],
   fun _ => Except.error FetchErr.rpc,
   fun _ => false, fun _ => false, fun _ => false⟩

/-- Environment where the status insert fails (with `sqlite3.Error`) for
id 2 only. -/
def envRecordFail2 : FetchEnv :=
  ⟨Except.ok [], fun _ => Except.error FetchErr.rpc,
   fun _ => false, fun _ => false, fun i => i == 2⟩

/-- Induction invariant for the rate-limiter trace: `g` is the list of all
grants so far (in order), `l` the stored `request_times`, `p` the last
clock reading.  Grants are strictly increasing, all at most `p`; the stored
list is a sublist of the grants; any grant no longer stored is at least one
second older than `p`; and every trailing 1-second window holds at most `m`
grants. -/
def RLInv (m : ℕ) (g l : List ℚ) (p : ℚ) : Prop :=
  List.Pairwise (· < ·) g ∧ (∀ t ∈ g, t ≤ p) ∧ l.Sublist g ∧
    (∀ t ∈ g, t ∉ l → t ≤ p - 1) ∧ (∀ x, windowCount x g ≤ m)

theorem minQ_mem : ∀ {l : List ℚ} {o : ℚ}, minQ l = some o → o ∈ l := by
  intro l
  induction l with
  | nil => intro o h; simp [minQ] at h
  | cons a t ih =>
    intro o h
    simp only [minQ] at h
    cases hm : minQ t with
    | none =>
      rw [hm] at h
      simp only [Option.some.injEq] at h
      subst h
      exact List.mem_cons_self a t
    | some b =>
      rw [hm] at h
      simp only [Option.some.injEq] at h
      subst h
      rcases min_choice a b with hc | hc
      · rw [hc]; exact List.mem_cons_self a t
      · rw [hc]; exact List.mem_cons_of_mem a (ih hm)

theorem length_filter_mono {α : Type} (p q : α → Bool) :
    ∀ (l : List α), (∀ a ∈ l, p a = true → q a = true) →
      (l.filter p).length ≤ (l.filter q).length := by
  intro l
  induction l with
  | nil => intro _; simp
  | cons a t ih =>
    intro h
    have ht : ∀ b ∈ t, p b = true → q b = true := fun b hb => h b (List.mem_cons_of_mem a hb)
    by_cases hp : p a = true
    · have hq : q a = true := h a (List.mem_cons_self a t) hp
      simp only [List.filter_cons, hp, hq, if_true]
      simpa using Nat.succ_le_succ (ih ht)
    · have hp' : p a = false := by simpa using hp
      simp only [List.filter_cons, hp']
      refine le_trans (ih ht) ?_
      cases hq : q a <;> simp

theorem length_filter_lt_of_mem {α : Type} (p : α → Bool) :
    ∀ {l : List α} {a : α}, a ∈ l → p a = false →
      (l.filter p).length < l.length := by
  intro l
  induction l with
  | nil => intro a h; simp at h
  | cons b t ih =>
    intro a hmem hpa
    rcases List.mem_cons.mp hmem with rfl | hat
    · simp only [List.filter_cons, hpa]
      exact Nat.lt_succ_of_le (List.length_filter_le p t)
    · simp only [List.filter_cons]
      cases hpb : p b
      · exact Nat.lt_succ_of_lt (ih hat hpa)
      · simpa using Nat.succ_lt_succ (ih hat hpa)

theorem filter_and_eq {α : Type} (p q : α → Bool) :
    ∀ (l : List α), l.filter (fun a => p a && q a) = (l.filter p).filter q := by
  intro l
  induction l with
  | nil => simp
  | cons a t ih =>
    simp only [List.filter_cons]
    cases hp : p a <;> cases hq : q a <;> simp [List.filter_cons, hp, hq, ih]

theorem filter_eq_of_sublist {α : Type} {p : α → Bool} :
    ∀ {l g : List α}, l.Sublist g → g.Nodup →
      (∀ a ∈ g, p a = true → a ∈ l) → g.filter p = l.filter p := by
  intro l g h
  induction h with
  | slnil => intro _ _; rfl
  | @cons l₁ l₂ a h ih =>
    intro hnd hmem
    have hnd' : l₂.Nodup := hnd.of_cons
    have hna : a ∉ l₂ := (List.nodup_cons.mp hnd).1
    have hpa : p a = false := by
      cases hpa : p a
      · rfl
      · exact absurd (h.subset (hmem a (List.mem_cons_self a l₂) hpa)) hna
    simp only [List.filter_cons, hpa]
    exact ih hnd' (fun b hb hpb => hmem b (List.mem_cons_of_mem a hb) hpb)
  | @cons₂ l₁ l₂ a h ih =>
    intro hnd hmem
    have hnd' : l₂.Nodup := hnd.of_cons
    have hna : a ∉ l₂ := (List.nodup_cons.mp hnd).1
    have htail : ∀ b ∈ l₂, p b = true → b ∈ l₁ := by
      intro b hb hpb
      rcases List.mem_cons.mp (hmem b (List.mem_cons_of_mem a hb) hpb) with rfl | hbl
      · exact absurd hb hna
      · exact hbl
    simp only [List.filter_cons]
    cases hpa : p a <;> simp [ih hnd' htail]

theorem rlPlan_ok {m : ℕ} {c : ℚ} {l : List ℚ} {w : ℚ} {kept : List ℚ}
    (h : rlPlan m c l = .ok (w, kept)) :
    kept = trim c l ∧ 0 ≤ w ∧
      (m ≤ (trim c l).length →
        ∃ o, minQ (trim c l) = some o ∧ o ∈ trim c l ∧ o + 1 ≤ c + w) ∧
      (¬ m ≤ (trim c l).length → w = 0) := by
  simp only [rlPlan] at h
  by_cases hlen : m ≤ (trim c l).length
  · rw [if_pos hlen] at h
    cases hmin : minQ (trim c l) with
    | none => rw [hmin] at h; exact Except.noConfusion h
    | some o =>
      rw [hmin] at h
      simp only [Except.ok.injEq, Prod.mk.injEq] at h
      obtain ⟨hw, hk⟩ := h
      refine ⟨hk.symm, ?_, ?_, ?_⟩
      · rw [← hw]; exact le_max_right _ _
      · intro _
        refine ⟨o, rfl, minQ_mem hmin, ?_⟩
        have hlow : 1 - (c - o) ≤ w := by rw [← hw]; exact le_max_left _ _
        linarith
      · intro hc; exact absurd hlen hc
  · rw [if_neg hlen] at h
    simp only [Except.ok.injEq, Prod.mk.injEq] at h
    obtain ⟨hw, hk⟩ := h
    exact ⟨hk.symm, by simp [← hw], fun hc => absurd hc hlen, fun _ => hw.symm⟩

theorem windowCount_append_single (x : ℚ) (g : List ℚ) (s : ℚ) :
    windowCount x (g ++ [s]) =
      windowCount x g + (if x - 1 < s ∧ s ≤ x then 1 else 0) := by
  unfold windowCount
  rw [List.filter_append, List.length_append]
  congr 1
  by_cases h : x - 1 < s ∧ s ≤ x <;> simp [h]

theorem RLInv_step {m : ℕ} {g l : List ℚ} {p c s w : ℚ} {kept : List ℚ}
    (hInv : RLInv m g l p) (hplan : rlPlan m c l = .ok (w, kept))
    (hpc : p < c) (hws : c + w ≤ s) :
    RLInv m (g ++ [s]) (kept ++ [s]) s := by
  obtain ⟨hSort, hLe, hSub, hDrop, hWin⟩ := hInv
  obtain ⟨hkept, hw0, hwait, hnowait⟩ := rlPlan_ok hplan
  have hcs : c ≤ s := le_trans (by linarith) hws
  have hnd : g.Nodup := hSort.imp (fun hab => ne_of_lt hab)
  have htrim : trim c g = trim c l := by
    unfold trim
    apply filter_eq_of_sublist hSub hnd
    intro a ha hpa
    by_contra hal
    have h1 : a ≤ p - 1 := hDrop a ha hal
    have h2 : c - a ≤ 1 := of_decide_eq_true hpa
    linarith
  have hkg : kept = trim c g := by rw [hkept, htrim]
  refine ⟨?_, ?_, ?_, ?_, ?_⟩
  · rw [List.pairwise_append]
    refine ⟨hSort, List.pairwise_singleton _ _, ?_⟩
    intro a ha b hb
    rw [List.mem_singleton] at hb
    subst hb
    exact lt_of_le_of_lt (hLe a ha) (lt_of_lt_of_le hpc hcs)
  · intro t ht
    rcases List.mem_append.mp ht with h1 | h1
    · exact le_trans (hLe t h1) (le_of_lt (lt_of_lt_of_le hpc hcs))
    · rw [List.mem_singleton] at h1; exact h1.le
  · rw [hkg]
    unfold trim
    exact (List.filter_sublist g).append (List.Sublist.refl [s])
  · intro t ht htl
    rcases List.mem_append.mp ht with h1 | h1
    · have htk : t ∉ kept := fun hk => htl (List.mem_append.mpr (Or.inl hk))
      rw [hkg] at htk
      have h2 : ¬ (c - t ≤ 1) := by
        intro hle
        exact htk (List.mem_filter.mpr ⟨h1, decide_eq_true hle⟩)
      have h3 : 1 < c - t := lt_of_not_le h2
      linarith
    · rw [List.mem_singleton] at h1
      subst h1
      exact absurd (List.mem_append.mpr
        (Or.inr (List.mem_singleton.mpr rfl))) htl
  · intro x
    rw [windowCount_append_single]
    by_cases hsx : x - 1 < s ∧ s ≤ x
    · rw [if_pos hsx]
      have hkeptlen : kept.length ≤ windowCount p g := by
        rw [hkg]
        unfold trim windowCount
        apply length_filter_mono
        intro a ha hpa
        have h2 : c - a ≤ 1 := of_decide_eq_true hpa
        have h3 : a ≤ p := hLe a ha
        exact decide_eq_true (by constructor <;> linarith)
      by_cases hlen : m ≤ (trim c l).length
      · obtain ⟨o, hmin, homem, ho1⟩ := hwait hlen
        have homem' : o ∈ trim c g := by rw [htrim]; exact homem
        unfold trim at homem'
        have hoc : c - o ≤ 1 := of_decide_eq_true (List.mem_filter.mp homem').2
        have hos : o + 1 ≤ s := le_trans ho1 hws
        have hstep1 : windowCount x g ≤
            (g.filter (fun t => decide (c - t ≤ 1) && decide (o < t))).length := by
          unfold windowCount
          apply length_filter_mono
          intro a ha hpa
          have hx := of_decide_eq_true hpa
          have h4 : o < a := by linarith [hx.1, hsx.2]
          have h5 : c - a ≤ 1 := by linarith [hx.1, hsx.2]
          simp only [Bool.and_eq_true, decide_eq_true_eq]
          exact ⟨h5, h4⟩
        have hstep2 :
            (g.filter (fun t => decide (c - t ≤ 1) && decide (o < t))).length
              < kept.length := by
          rw [filter_and_eq, hkg]
          unfold trim
          exact length_filter_lt_of_mem _ homem' (by simp)
        have hfin : windowCount x g < m :=
          lt_of_lt_of_le (lt_of_le_of_lt hstep1 hstep2)
            (le_trans hkeptlen (hWin p))
        omega
      · have hstep : windowCount x g ≤ kept.length := by
          rw [hkg]
          unfold windowCount trim
          apply length_filter_mono
          intro a ha hpa
          have hx := of_decide_eq_true hpa
          have h5 : c - a ≤ 1 := by linarith [hx.1, hsx.2]
          exact decide_eq_true h5
        have hlt : kept.length < m := by
          rw [hkept]
          exact Nat.lt_of_not_le hlen
        omega
    · rw [if_neg hsx]
      simpa using hWin x

theorem rl_window_aux (m : ℕ) :
    ∀ (calls : List (ℚ × ℚ)) (g l : List ℚ) (p : ℚ),
      RLInv m g l p → validFrom m l p calls = true →
      ∀ x, windowCount x (g ++ calls.map Prod.snd) ≤ m := by
  intro calls
  induction calls with
  | nil =>
    intro g l p hInv _ x
    simpa using hInv.2.2.2.2 x
  | cons cs rest ih =>
    obtain ⟨c, s⟩ := cs
    intro g l p hInv hv x
    simp only [validFrom] at hv
    cases hplan : rlPlan m c l with
    | error e => rw [hplan] at hv; simp at hv
    | ok ws =>
      obtain ⟨w, kept⟩ := ws
      rw [hplan] at hv
      simp only [Bool.and_eq_true, decide_eq_true_eq] at hv
      obtain ⟨⟨hpc, hws⟩, hv2⟩ := hv
      have hInv2 : RLInv m (g ++ [s]) (kept ++ [s]) s :=
        RLInv_step ⟨hInv.1, hInv.2.1, hInv.2.2.1, hInv.2.2.2.1, hInv.2.2.2.2⟩
          hplan hpc hws
      have hrec := ih (g ++ [s]) (kept ++ [s]) s hInv2 hv2 x
      simpa [List.append_assoc] using hrec

theorem check_users_individually_events (env : FetchEnv) :
    ∀ (ids : List ℤ) (db : DBState),
      (check_users_individually env db ids).1 = blocks env ids := by
  intro ids
  induction ids with
  | nil => intro db; rfl
  | cons uid rest ih =>
    intro db
    cases hind : env.individual uid with
    | error e =>
      cases e with
      | floodWait n => simp [check_users_individually, blocks, indivBlock, hind, ih]
      | rpc => simp [check_users_individually, blocks, indivBlock, hind, ih]
      | otherErr => simp [check_users_individually, blocks, indivBlock, hind, ih]
    | ok u =>
      by_cases hpr : env.processRaise u.id
      · simp [check_users_individually, blocks, indivBlock, hind, processUser, hpr, ih]
      · simp [check_users_individually, blocks, indivBlock, hind, processUser, hpr, ih]

theorem blocks_filter_indiv (env : FetchEnv) :
    ∀ (ids : List ℤ), (blocks env ids).filter isIndivB = ids.map Ev.indivFetch := by
  intro ids
  induction ids with
  | nil => rfl
  | cons uid rest ih =>
    have hblock : (indivBlock env uid).filter isIndivB = [Ev.indivFetch uid] := by
      cases hind : env.individual uid with
      | error e => cases e <;> simp [indivBlock, hind, isIndivB]
      | ok u =>
        by_cases hpr : env.processRaise u.id <;>
          simp [indivBlock, hind, isIndivB, hpr]
    simp [blocks, List.filter_append, hblock, ih]

theorem processUsers_events (env : FetchEnv) :
    ∀ (users : List TUser) (db : DBState),
      (processUsers env db users).1 =
        users.map (fun u => if env.processRaise u.id then Ev.procError u.id
                            else Ev.procUser u.id) := by
  intro users
  induction users with
  | nil => intro db; rfl
  | cons u rest ih =>
    intro db
    by_cases hpr : env.processRaise u.id <;>
      simp [processUsers, processUser, hpr, ih]

theorem update_user_conn (db : DBState) (u : TUser) (f : Bool) :
    (update_user db u f).conn_open = db.conn_open := by
  unfold update_user
  split
  · rfl
  split
  · rfl
  split
  · rfl
  · rfl

theorem update_user_status_rows (db : DBState) (u : TUser) (f : Bool) :
    (update_user db u f).status_rows = db.status_rows := by
  unfold update_user
  split
  · rfl
  split
  · rfl
  split
  · rfl
  · rfl

theorem update_user_next (db : DBState) (u : TUser) (f : Bool) :
    (update_user db u f).next_status_id = db.next_status_id := by
  unfold update_user
  split
  · rfl
  split
  · rfl
  split
  · rfl
  · rfl

theorem update_user_errors (db : DBState) (u : TUser) (hc : db.conn_open = true) :
    (update_user db u false).errors_logged = db.errors_logged := by
  simp only [update_user, hc]
  split
  · simp at *
  split
  · simp at *
  split
  · rfl
  · rfl

theorem record_status_ok (db : DBState) (uid : ℤ) (st : String) (wo : Option ℤ)
    (hc : db.conn_open = true) :
    record_status db uid st wo false =
      { db with
        status_rows := db.status_rows ++ [⟨db.next_status_id, uid, st, wo⟩],
        next_status_id := db.next_status_id + 1 } := by
  simp [record_status, hc]

theorem record_status_fail (db : DBState) (uid : ℤ) (st : String) (wo : Option ℤ)
    (hc : db.conn_open = true) :
    record_status db uid st wo true =
      { db with errors_logged := db.errors_logged + 1 } := by
  simp [record_status, hc]

theorem processUser_ok_state (env : FetchEnv) (db : DBState) (u : TUser)
    (hc : db.conn_open = true) (hp : env.processRaise u.id = false)
    (hr : env.recordFail u.id = false) :
    (processUser env db u).2.status_rows =
      db.status_rows ++
        [⟨db.next_status_id, u.id, (statusFields u.status).1,
          (statusFields u.status).2⟩] ∧
    (processUser env db u).2.next_status_id = db.next_status_id + 1 ∧
    (processUser env db u).2.conn_open = true ∧
    (env.updateFail u.id = false →
      (processUser env db u).2.errors_logged = db.errors_logged) := by
  have hc1 : (update_user db u (env.updateFail u.id)).conn_open = true := by
    rw [update_user_conn, hc]
  have hrec := record_status_ok (update_user db u (env.updateFail u.id)) u.id
    (statusFields u.status).1 (statusFields u.status).2 hc1
  simp only [processUser, hp, if_false, record_user_status, hr, Bool.false_eq_true]
  rw [hrec]
  refine ⟨?_, ?_, ?_, ?_⟩
  · simp [update_user_status_rows, update_user_next]
  · simp [update_user_next]
  · simp [hc1]
  · intro hu
    simp only []
    rw [hu] at *
    simp [update_user_errors db u hc]

theorem loopStep_sleep_iter (itv : ℕ) :
    ∀ (j r : ℕ) (e : Engine), j ≤ r → e.phase = Phase.sleeping r →
      (loopStep itv)^[j] e = { e with phase := Phase.sleeping (r - j) } := by
  intro j
  induction j with
  | zero =>
    intro r e _ h
    cases e with
    | mk ir co dbo cy ph =>
      dsimp only at h
      subst h
      simp
  | succ n ih =>
    intro r e hjr h
    rw [Function.iterate_succ_apply]
    cases r with
    | zero => omega
    | succ k =>
      have hstep : loopStep itv e = { e with phase := Phase.sleeping k } := by
        unfold loopStep
        rw [h]
      rw [hstep]
      have hrec := ih k { e with phase := Phase.sleeping k } (by omega) rfl
      rw [hrec]
      simp [Nat.succ_sub_succ]

/-- Claim C1: for every single-caller sequence of `RateLimiter.wait_if_needed`
calls (strictly monotone clock readings, each post-sleep reading honouring
the requested sleep), at every moment `x` the trailing 1-second window
(the half-open interval from `x - 1` exclusive to `x` inclusive) contains
at most `max_requests_per_second` recorded grant timestamps.  The per-call
algorithm of the claim — discard timestamps older than 1 second, and when
the remaining count reaches the maximum sleep `1.0 - (now - oldest)`
clamped to be non-negative before recording the grant — is the definition
of `rlPlan` / `validFrom`. -/
theorem rate_limiter_window_bound (m : ℕ) (p0 : ℚ) (calls : List (ℚ × ℚ))
    (hv : validFrom m [] p0 calls = true) (x : ℚ) :
    windowCount x (calls.map Prod.snd) ≤ m := by
  have h0 : RLInv m [] [] p0 := by
    refine ⟨List.Pairwise.nil, ?_, List.Sublist.refl [], ?_, ?_⟩
    · intro t ht; exact absurd ht (List.not_mem_nil t)
    · intro t ht _; exact absurd ht (List.not_mem_nil t)
    · intro y; simp [windowCount]
  simpa using rl_window_aux m calls [] [] p0 h0 hv x

/-- Witness for C1: a concrete valid two-call trace with maximum 1; the
second call at time 1 finds the grant from time 0 still in the window, its
computed wait `1 - (1 - 0)` clamps to zero, and the window ending at the
second grant holds one grant. -/
theorem rate_limiter_window_bound_witness :
    validFrom 1 [] (-1) [((0 : ℚ), (0 : ℚ)), (1, 1)] = true ∧
    windowCount 1 ([((0 : ℚ), (0 : ℚ)), (1, 1)].map Prod.snd) ≤ 1 :=
  ⟨by norm_num [validFrom, rlPlan, trim, minQ],
   rate_limiter_window_bound 1 (-1) [((0 : ℚ), (0 : ℚ)), (1, 1)]
     (by norm_num [validFrom, rlPlan, trim, minQ]) 1⟩

/-- Claim C3: every status observation written by
`_record_user_status` has a non-null `was_online` exactly when its status
tag is `"offline"`; when present the value is taken verbatim from the
remote reply, and any raw status other than online/offline/recently is
normalized to `"unknown"`. -/
theorem observation_was_online_iff_offline (db : DBState) (u : TUser)
    (h : db.conn_open = true) :
    ∃ r : StatusRow,
      (record_user_status db u false).status_rows = db.status_rows ++ [r] ∧
      (r.was_online.isSome ↔ r.status = "offline") ∧
      (∀ t, u.status = UserStatusT.offline t →
        r.status = "offline" ∧ r.was_online = some t) ∧
      (u.status = UserStatusT.otherStatus → r.status = "unknown") := by
  refine ⟨⟨db.next_status_id, u.id, (statusFields u.status).1,
    (statusFields u.status).2⟩, ?_, ?_, ?_, ?_⟩
  · simp [record_user_status, record_status, h]
  · cases u.status <;> simp [statusFields]
  · intro t ht; rw [ht]; simp [statusFields]
  · intro ht; rw [ht]; simp [statusFields]

/-- Witness for C3: recording an offline profile (last seen at 5) in the
fresh open database. -/
theorem observation_was_online_iff_offline_witness :
    dbOpen.conn_open = true ∧
    (∃ r : StatusRow,
      (record_user_status dbOpen (sampleUser 2 (UserStatusT.offline 5))
          false).status_rows = dbOpen.status_rows ++ [r] ∧
      (r.was_online.isSome ↔ r.status = "offline") ∧
      (∀ t, (sampleUser 2 (UserStatusT.offline 5)).status = UserStatusT.offline t →
        r.status = "offline" ∧ r.was_online = some t) ∧
      ((sampleUser 2 (UserStatusT.offline 5)).status = UserStatusT.otherStatus →
        r.status = "unknown")) :=
  ⟨rfl, observation_was_online_iff_offline dbOpen
    (sampleUser 2 (UserStatusT.offline 5)) rfl⟩

/-- Claim C8: a `RateLimiter` configured with `max_requests_per_second = 0`
raises at the first `wait_if_needed` call (the `ValueError` of `min([])`
on the fresh empty timestamp list) instead of waiting forever. -/
theorem rate_limiter_zero_max_errors (c : ℚ) :
    rlPlan 0 c [] = Except.error PyError.valueError := rfl

/-- Claim C10: `update_user` and `record_status` called while the database
connection is not initialized return normally, log an error, and leave the
store untouched. -/
theorem db_write_without_connection_noop (db : DBState) (u : TUser) (uid : ℤ)
    (st : String) (wo : Option ℤ) (f g : Bool) (h : db.conn_open = false) :
    update_user db u f = { db with errors_logged := db.errors_logged + 1 } ∧
    record_status db uid st wo g =
      { db with errors_logged := db.errors_logged + 1 } := by
  constructor <;> simp [update_user, record_status, h]

/-- Witness for C10: both writes against the closed database. -/
theorem db_write_without_connection_noop_witness :
    dbClosed.conn_open = false ∧
    (update_user dbClosed (sampleUser 1 UserStatusT.online) false =
      { dbClosed with errors_logged := dbClosed.errors_logged + 1 } ∧
    record_status dbClosed 1 "online" none false =
      { dbClosed with errors_logged := dbClosed.errors_logged + 1 }) :=
  ⟨rfl, db_write_without_connection_noop dbClosed
    (sampleUser 1 UserStatusT.online) 1 "online" none false false rfl⟩

/-- Claim C2 counterexample: a batch failure with a plain `RPCError` — not a
rate-limit signal — with 3 tracked ids yields 0 individual fetch attempts,
not 3: `_check_all_users` only falls back for the generic `except Exception`
branch, while `except RPCError` merely logs and ends the cycle. -/
theorem batch_rpc_no_fallback_counterexample :
    envRpc.batch = Except.error FetchErr.rpc ∧
    ((check_all_users envRpc dbOpen [1, 2, 3]).1.filter isIndivB).length = 0 ∧
    ((check_all_users envRpc dbOpen [1, 2, 3]).1.filter isIndivB).length ≠ 3 := by
  refine ⟨rfl, ?_, ?_⟩ <;> decide

/-- Claim C2 (amended): for every failure of the batch fetch request whose
cause is neither a rate-limit signal nor a protocol-level (`RPCError`)
error, the fetcher enters fallback mode and makes exactly one individual
fetch attempt per tracked account id, with a rate-limiter wait before
each, and a failure on one id does not prevent the remaining ids from
being attempted. -/
theorem batch_other_error_fallback_attempts (env : FetchEnv) (db : DBState)
    (ids : List ℤ) (h : env.batch = Except.error FetchErr.otherErr) :
    (check_all_users env db ids).1 =
      [Ev.rlWait, Ev.batchFetch, Ev.logErr] ++ blocks env ids ∧
    (check_all_users env db ids).1.filter isIndivB = ids.map Ev.indivFetch ∧
    ∀ uid, ∃ t, indivBlock env uid = [Ev.rlWait, Ev.indivFetch uid] ++ t := by
  have hev : (check_all_users env db ids).1 =
      [Ev.rlWait, Ev.batchFetch, Ev.logErr] ++
        (check_users_individually env db ids).1 := by
    simp [check_all_users, h]
  rw [hev, check_users_individually_events]
  refine ⟨rfl, ?_, ?_⟩
  · rw [List.filter_append, blocks_filter_indiv]
    simp [isIndivB]
  · intro uid
    cases hind : env.individual uid with
    | error e =>
      cases e with
      | floodWait n => exact ⟨[Ev.sleep n], by simp [indivBlock, hind]⟩
      | rpc => exact ⟨[Ev.logErr], by simp [indivBlock, hind]⟩
      | otherErr => exact ⟨[Ev.logErr], by simp [indivBlock, hind]⟩
    | ok u =>
      exact ⟨if env.processRaise u.id then [Ev.procError u.id]
             else [Ev.procUser u.id], by simp [indivBlock, hind]⟩

/-- Witness for C2 (amended): an unclassified batch failure over ids
1, 2, 3 where the individual request for id 2 also fails; all three ids
are still attempted exactly once. -/
theorem batch_other_error_fallback_attempts_witness :
    envFallbackSample.batch = Except.error FetchErr.otherErr ∧
    ((check_all_users envFallbackSample dbOpen [1, 2, 3]).1 =
      [Ev.rlWait, Ev.batchFetch, Ev.logErr] ++ blocks envFallbackSample [1, 2, 3] ∧
    (check_all_users envFallbackSample dbOpen [1, 2, 3]).1.filter isIndivB =
      [1, 2, 3].map Ev.indivFetch ∧
    ∀ uid, ∃ t, indivBlock envFallbackSample uid =
      [Ev.rlWait, Ev.indivFetch uid] ++ t) :=
  ⟨rfl, batch_other_error_fallback_attempts envFallbackSample dbOpen [1, 2, 3] rfl⟩

/-- Claim C5: a rate-limit signal carrying an `N`-second wait makes the
batch path sleep exactly `N` seconds and abort the rest of the cycle
(no fallback, database untouched), while in fallback mode the affected id
sleeps `N` seconds and the loop continues with the next tracked id. -/
theorem flood_wait_handling (env1 env2 : FetchEnv) (db1 db2 : DBState)
    (ids : List ℤ) (uid : ℤ) (rest : List ℤ) (n k : ℕ)
    (h1 : env1.batch = Except.error (FetchErr.floodWait n))
    (h2 : env2.individual uid = Except.error (FetchErr.floodWait k)) :
    check_all_users env1 db1 ids = ([Ev.rlWait, Ev.batchFetch, Ev.sleep n], db1) ∧
    check_users_individually env2 db2 (uid :: rest) =
      ([Ev.rlWait, Ev.indivFetch uid, Ev.sleep k] ++
        (check_users_individually env2 db2 rest).1,
       (check_users_individually env2 db2 rest).2) := by
  constructor
  · simp [check_all_users, h1]
  · simp [check_users_individually, h2]

/-- Witness for C5: a 7-second batch flood wait ends the cycle, and a
4-second flood wait on id 1 in fallback is followed by ids 2 and 3. -/
theorem flood_wait_handling_witness :
    envBatchFlood.batch = Except.error (FetchErr.floodWait 7) ∧
    envIndivFlood.individual 1 = Except.error (FetchErr.floodWait 4) ∧
    (check_all_users envBatchFlood dbOpen [1, 2, 3] =
      ([Ev.rlWait, Ev.batchFetch, Ev.sleep 7], dbOpen) ∧
    check_users_individually envIndivFlood dbOpen ((1 : ℤ) :: [2, 3]) =
      ([Ev.rlWait, Ev.indivFetch 1, Ev.sleep 4] ++
        (check_users_individually envIndivFlood dbOpen [2, 3]).1,
       (check_users_individually envIndivFlood dbOpen [2, 3]).2)) :=
  ⟨rfl, rfl, flood_wait_handling envBatchFlood envIndivFlood dbOpen dbOpen
    [1, 2, 3] 1 [2, 3] 7 4 rfl rfl⟩

/-- Claim C9: when the batch request itself succeeds, an exception raised
while processing one returned profile is caught per item: fallback mode is
never entered (no individual fetch attempt occurs) and every profile in
the batch reply still yields exactly one processing outcome, in order. -/
theorem batch_item_error_no_fallback (env : FetchEnv) (db : DBState)
    (ids : List ℤ) (users : List TUser) (h : env.batch = Except.ok users) :
    (check_all_users env db ids).1.filter isIndivB = [] ∧
    (check_all_users env db ids).1.filter isProcB =
      users.map (fun u => if env.processRaise u.id then Ev.procError u.id
                          else Ev.procUser u.id) := by
  have hev : (check_all_users env db ids).1 =
      [Ev.rlWait, Ev.batchFetch] ++ (processUsers env db users).1 := by
    simp [check_all_users, h]
  rw [hev, processUsers_events]
  have hall : ∀ us : List TUser,
      ((us.map (fun u => if env.processRaise u.id then Ev.procError u.id
          else Ev.procUser u.id)).filter isIndivB = [] ∧
       (us.map (fun u => if env.processRaise u.id then Ev.procError u.id
          else Ev.procUser u.id)).filter isProcB =
         us.map (fun u => if env.processRaise u.id then Ev.procError u.id
          else Ev.procUser u.id)) := by
    intro us
    induction us with
    | nil => exact ⟨rfl, rfl⟩
    | cons v vs ihv =>
      by_cases hv : env.processRaise v.id <;>
        simp [hv, isIndivB, isProcB, ihv.1, ihv.2]
  constructor
  · rw [List.filter_append, (hall users).1]
    simp [isIndivB]
  · rw [List.filter_append, (hall users).2]
    simp [isProcB]

/-- Witness for C9: a successful batch of three profiles where processing
the profile with id 2 raises; no fallback, all three outcomes recorded. -/
theorem batch_item_error_no_fallback_witness :
    envBatchOk3.batch = Except.ok users3 ∧
    ((check_all_users envBatchOk3 dbOpen [1, 2, 3]).1.filter isIndivB = [] ∧
     (check_all_users envBatchOk3 dbOpen [1, 2, 3]).1.filter isProcB =
       users3.map (fun u => if envBatchOk3.processRaise u.id then Ev.procError u.id
                            else Ev.procUser u.id)) :=
  ⟨rfl, batch_item_error_no_fallback envBatchOk3 dbOpen [1, 2, 3] users3 rfl⟩

theorem cycle_appends_one (env : FetchEnv) (db : DBState) (ids : List ℤ)
    (u : TUser) (hb : env.batch = Except.ok [u]) (hc : db.conn_open = true)
    (hp : env.processRaise u.id = false) (hr : env.recordFail u.id = false) :
    (check_all_users env db ids).2.status_rows =
      db.status_rows ++ [⟨db.next_status_id, u.id, (statusFields u.status).1,
        (statusFields u.status).2⟩] ∧
    (check_all_users env db ids).2.next_status_id = db.next_status_id + 1 ∧
    (check_all_users env db ids).2.conn_open = true := by
  have hdb : (check_all_users env db ids).2 = (processUser env db u).2 := by
    simp [check_all_users, hb, processUsers]
  obtain ⟨h1, h2, h3, _⟩ := processUser_ok_state env db u hc hp hr
  rw [hdb]
  exact ⟨h1, h2, h3⟩

/-- Claim C4: two consecutive successful cycles reporting the same status
for the same account id append two distinct observation rows (distinct
autoincrement keys, identical user and status fields): the store is
append-only and never deduplicated. -/
theorem observations_append_only (env : FetchEnv) (db : DBState) (ids : List ℤ)
    (u : TUser) (hb : env.batch = Except.ok [u]) (hc : db.conn_open = true)
    (hp : env.processRaise u.id = false) (hr : env.recordFail u.id = false) :
    (check_all_users env (check_all_users env db ids).2 ids).2.status_rows =
      db.status_rows ++
        [⟨db.next_status_id, u.id, (statusFields u.status).1,
          (statusFields u.status).2⟩,
         ⟨db.next_status_id + 1, u.id, (statusFields u.status).1,
          (statusFields u.status).2⟩] ∧
    db.next_status_id ≠ db.next_status_id + 1 := by
  obtain ⟨h1, h2, h3⟩ := cycle_appends_one env db ids u hb hc hp hr
  obtain ⟨h4, h5, h6⟩ :=
    cycle_appends_one env (check_all_users env db ids).2 ids u hb h3 hp hr
  constructor
  · rw [h4, h1, h2]
    simp
  · omega

/-- Witness for C4: two cycles over a single recently-seen profile with
id 5 against the fresh open database. -/
theorem observations_append_only_witness :
    envBatchOk1.batch = Except.ok [sampleUser 5 UserStatusT.recently] ∧
    ((check_all_users envBatchOk1
        (check_all_users envBatchOk1 dbOpen [5]).2 [5]).2.status_rows =
      dbOpen.status_rows ++
        [⟨dbOpen.next_status_id, (sampleUser 5 UserStatusT.recently).id,
          (statusFields (sampleUser 5 UserStatusT.recently).status).1,
          (statusFields (sampleUser 5 UserStatusT.recently).status).2⟩,
         ⟨dbOpen.next_status_id + 1, (sampleUser 5 UserStatusT.recently).id,
          (statusFields (sampleUser 5 UserStatusT.recently).status).1,
          (statusFields (sampleUser 5 UserStatusT.recently).status).2⟩] ∧
     dbOpen.next_status_id ≠ dbOpen.next_status_id + 1) :=
  ⟨rfl, observations_append_only envBatchOk1 dbOpen [5]
    (sampleUser 5 UserStatusT.recently) rfl rfl rfl rfl⟩

theorem processUser_recordFail_state (env : FetchEnv) (db : DBState) (u : TUser)
    (hc : db.conn_open = true) (hp : env.processRaise u.id = false)
    (hu : env.updateFail u.id = false) (hr : env.recordFail u.id = true) :
    (processUser env db u).2.status_rows = db.status_rows ∧
    (processUser env db u).2.next_status_id = db.next_status_id ∧
    (processUser env db u).2.conn_open = true ∧
    (processUser env db u).2.errors_logged = db.errors_logged + 1 := by
  have hc1 : (update_user db u (env.updateFail u.id)).conn_open = true := by
    rw [update_user_conn, hc]
  have hrec := record_status_fail (update_user db u (env.updateFail u.id)) u.id
    (statusFields u.status).1 (statusFields u.status).2 hc1
  simp only [processUser, hp, record_user_status, hr, Bool.false_eq_true, if_false]
  rw [hrec]
  refine ⟨?_, ?_, ?_, ?_⟩
  · simp [update_user_status_rows]
  · simp [update_user_next]
  · simp [hc1]
  · rw [hu] at *
    simp [update_user_errors db u hc]

/-- Claim C7: a failing status insert (`sqlite3.Error`, rolled back and
logged) for the middle account of a batch of three does not prevent the
writes for the other two accounts: processing continues and exactly the
two other observation rows are appended, with one error logged. -/
theorem persistence_failure_isolated (env : FetchEnv) (db : DBState)
    (u1 u2 u3 : TUser) (hc : db.conn_open = true)
    (hp1 : env.processRaise u1.id = false) (hp2 : env.processRaise u2.id = false)
    (hp3 : env.processRaise u3.id = false)
    (hu1 : env.updateFail u1.id = false) (hu2 : env.updateFail u2.id = false)
    (hu3 : env.updateFail u3.id = false)
    (hr1 : env.recordFail u1.id = false) (hr2 : env.recordFail u2.id = true)
    (hr3 : env.recordFail u3.id = false) :
    (processUsers env db [u1, u2, u3]).2.status_rows =
      db.status_rows ++
        [⟨db.next_status_id, u1.id, (statusFields u1.status).1,
          (statusFields u1.status).2⟩,
         ⟨db.next_status_id + 1, u3.id, (statusFields u3.status).1,
          (statusFields u3.status).2⟩] ∧
    (processUsers env db [u1, u2, u3]).1 =
      [Ev.procUser u1.id, Ev.procUser u2.id, Ev.procUser u3.id] ∧
    (processUsers env db [u1, u2, u3]).2.errors_logged =
      db.errors_logged + 1 := by
  have hres : (processUsers env db [u1, u2, u3]).2 =
      (processUser env (processUser env (processUser env db u1).2 u2).2 u3).2 := by
    simp [processUsers]
  obtain ⟨a1, a2, a3, a4⟩ := processUser_ok_state env db u1 hc hp1 hr1
  obtain ⟨b1, b2, b3, b4⟩ :=
    processUser_recordFail_state env (processUser env db u1).2 u2 a3 hp2 hu2 hr2
  obtain ⟨c1, c2, c3, c4⟩ := processUser_ok_state env
    (processUser env (processUser env db u1).2 u2).2 u3 b3 hp3 hr3
  refine ⟨?_, ?_, ?_⟩
  · rw [hres, c1, b1, b2, a1, a2]
    simp
  · simp [processUsers, processUser, hp1, hp2, hp3]
  · rw [hres, c4 hu3, b4, a4 hu1]

/-- Witness for C7: three online profiles with ids 1, 2, 3 where only the
status insert for id 2 fails. -/
theorem persistence_failure_isolated_witness :
    dbOpen.conn_open = true ∧
    envRecordFail2.recordFail (sampleUser 2 UserStatusT.online).id = true ∧
    ((processUsers envRecordFail2 dbOpen
        [sampleUser 1 UserStatusT.online, sampleUser 2 UserStatusT.online,
         sampleUser 3 UserStatusT.online]).2.status_rows =
      dbOpen.status_rows ++
        [⟨dbOpen.next_status_id, (sampleUser 1 UserStatusT.online).id,
          (statusFields (sampleUser 1 UserStatusT.online).status).1,
          (statusFields (sampleUser 1 UserStatusT.online).status).2⟩,
         ⟨dbOpen.next_status_id + 1, (sampleUser 3 UserStatusT.online).id,
          (statusFields (sampleUser 3 UserStatusT.online).status).1,
          (statusFields (sampleUser 3 UserStatusT.online).status).2⟩] ∧
    (processUsers envRecordFail2 dbOpen
        [sampleUser 1 UserStatusT.online, sampleUser 2 UserStatusT.online,
         sampleUser 3 UserStatusT.online]).1 =
      [Ev.procUser (sampleUser 1 UserStatusT.online).id,
       Ev.procUser (sampleUser 2 UserStatusT.online).id,
       Ev.procUser (sampleUser 3 UserStatusT.online).id] ∧
    (processUsers envRecordFail2 dbOpen
        [sampleUser 1 UserStatusT.online, sampleUser 2 UserStatusT.online,
         sampleUser 3 UserStatusT.online]).2.errors_logged =
      dbOpen.errors_logged + 1) :=
  ⟨rfl, rfl, persistence_failure_isolated envRecordFail2 dbOpen
    (sampleUser 1 UserStatusT.online) (sampleUser 2 UserStatusT.online)
    (sampleUser 3 UserStatusT.online)
    rfl rfl rfl rfl rfl rfl rfl rfl rfl rfl⟩

/-- Claim C6 counterexample: a stop request issued while the loop has 3
ticks of the interval sleep remaining does not interrupt the sleep — the
loop is still inside the sleeping phase after each of the 3 remaining
ticks, returns to the `while` check only after the sleep completes, and
only then exits; no new fetch cycle is started (`cycles` stays 1). -/
theorem stop_not_interrupting_sleep_counterexample :
    ((loopStep 10)^[1] (stopEngine ⟨true, true, true, 1, Phase.sleeping 3⟩)).phase
      = Phase.sleeping 2 ∧
    ((loopStep 10)^[2] (stopEngine ⟨true, true, true, 1, Phase.sleeping 3⟩)).phase
      = Phase.sleeping 1 ∧
    ((loopStep 10)^[3] (stopEngine ⟨true, true, true, 1, Phase.sleeping 3⟩)).phase
      = Phase.sleeping 0 ∧
    ((loopStep 10)^[4] (stopEngine ⟨true, true, true, 1, Phase.sleeping 3⟩)).phase
      = Phase.loopTop ∧
    ((loopStep 10)^[5] (stopEngine ⟨true, true, true, 1, Phase.sleeping 3⟩)).phase
      = Phase.exited ∧
    ((loopStep 10)^[5] (stopEngine ⟨true, true, true, 1, Phase.sleeping 3⟩)).cycles
      = 1 :=
  ⟨rfl, rfl, rfl, rfl, rfl, rfl⟩

/-- Claim C6 (amended): a stop request issued during the interval sleep
does not interrupt the sleep: the loop remains in the sleeping phase for
the full remaining duration, then observes the cleared running flag at the
`while` check and exits without starting a new fetch cycle; the stop call
itself disconnects the session and closes the persistence handle. -/
theorem stop_during_sleep_reaches_stopped (itv r : ℕ) (e : Engine)
    (h : e.phase = Phase.sleeping r) :
    (∀ j, j ≤ r →
      ((loopStep itv)^[j] (stopEngine e)).phase = Phase.sleeping (r - j)) ∧
    ((loopStep itv)^[r + 2] (stopEngine e)).phase = Phase.exited ∧
    ((loopStep itv)^[r + 2] (stopEngine e)).cycles = e.cycles ∧
    (stopEngine e).connected = false ∧ (stopEngine e).db_open = false := by
  have hstop : (stopEngine e).phase = Phase.sleeping r := h
  have hiter : ∀ j, j ≤ r → (loopStep itv)^[j] (stopEngine e) =
      { stopEngine e with phase := Phase.sleeping (r - j) } :=
    fun j hj => loopStep_sleep_iter itv j r (stopEngine e) hj hstop
  have h0 : (loopStep itv)^[r] (stopEngine e) =
      { stopEngine e with phase := Phase.sleeping 0 } := by
    have hbase := hiter r le_rfl
    simpa using hbase
  have h2 : (loopStep itv)^[r + 2] (stopEngine e) =
      { stopEngine e with phase := Phase.exited } := by
    have hr2 : r + 2 = 2 + r := by omega
    rw [hr2, Function.iterate_add_apply, h0]
    rfl
  refine ⟨?_, ?_, ?_, rfl, rfl⟩
  · intro j hj
    rw [hiter j hj]
  · rw [h2]
  · rw [h2]
    rfl

/-- Witness for C6 (amended): an engine with 3 sleep ticks remaining and
one completed cycle, interval 10. -/
theorem stop_during_sleep_reaches_stopped_witness :
    (⟨true, true, true, 2, Phase.sleeping 3⟩ : Engine).phase = Phase.sleeping 3 ∧
    ((∀ j, j ≤ 3 →
      ((loopStep 10)^[j]
        (stopEngine ⟨true, true, true, 2, Phase.sleeping 3⟩)).phase =
          Phase.sleeping (3 - j)) ∧
    ((loopStep 10)^[3 + 2]
      (stopEngine ⟨true, true, true, 2, Phase.sleeping 3⟩)).phase =
        Phase.exited ∧
    ((loopStep 10)^[3 + 2]
      (stopEngine ⟨true, true, true, 2, Phase.sleeping 3⟩)).cycles =
        (⟨true, true, true, 2, Phase.sleeping 3⟩ : Engine).cycles ∧
    (stopEngine ⟨true, true, true, 2, Phase.sleeping 3⟩).connected = false ∧
    (stopEngine ⟨true, true, true, 2, Phase.sleeping 3⟩).db_open = false) :=
  ⟨rfl, stop_during_sleep_reaches_stopped 10 3
    ⟨true, true, true, 2, Phase.sleeping 3⟩ rfl⟩
